import Mathlib

/-!
Verification development for the multi-device live preview system of the
Koha "Celebrations" theming plugin (client-side admin interface).

The JavaScript source is embedded shallowly:
* DOM inputs become an explicit reader function `String → Option InputEl`;
* the iframe document becomes a list of element records (`Doc`);
* the asynchronous JS-injection choreography becomes a function of an
  explicit fetch oracle and an explicit completion interleaving (a
  permutation of the fetch indices), producing the event trace of script
  appends and DOMContentLoaded dispatches;
* pixel geometry is computed over `ℚ`.
-/

namespace Celebrations

/-- A form input element as observed through `getById`: its `type`
attribute, `checked` state and string `value`. -/
structure InputEl where
  ty : String
  checked : Bool
  value : String
deriving Repr, DecidableEq

/-- The capability to read the current input for an identifier
(`getById`); `none` models `document.getElementById` returning `null`. -/
abbrev Reader : Type := String → Option InputEl

/-- The process-wide environment map (`window[key]`); `none` models an
undefined global. -/
abbrev EnvMap : Type := String → Option String

/-- JavaScript truthiness of an optional string: `undefined`/missing and
the empty string are falsy. -/
def truthy : Option String → Bool
  | none => false
  | some s => s ≠ ""

/-- One entry of an element's `extra_options` map:
`\x7btype, css?, js?\x7d`. -/
structure ExtraOption where
  ty : String
  css : Option String
  js : Option String
deriving Repr, DecidableEq

/-- One element definition of a theme: primary `setting` input id, optional
`file`, optional asset `type`, and the ordered `extra_options` entries. -/
structure ElementDef where
  setting : String
  file : Option String
  ty : Option String
  extra_options : List (String × ExtraOption)
deriving Repr, DecidableEq

/-- A theme's configuration: its ordered `elements` entries. -/
structure ThemeData where
  elements : List (String × ElementDef)
deriving Repr, DecidableEq

/-- The result of asset collection.  `jsOptions` is kept as the trace of
assignments `jsOptions[key] = value` in execution order (a later
assignment to the same key overwrites an earlier one); a value of `none`
records an assignment of an undefined global. -/
structure Assets where
  cssFiles : List String
  jsFiles : List String
  jsOptions : List (String × Option String)
deriving Repr, DecidableEq

/-- `API_ENDPOINTS.previewAsset`. -/
def previewAssetBase : String :=
  "/cgi-bin/koha/plugins/run.pl?class=Koha::Plugin::Celebrations&method=preview_theme_asset"

/-- The asset URL built by `collectThemeAssets`:
`baseUrl&type=...&theme=...&file=...`. -/
def assetUrl (ty selectedTheme file : String) : String :=
  previewAssetBase ++ "&type=" ++ ty ++ "&theme=" ++ selectedTheme ++ "&file=" ++ file

/-- `input?.type === 'checkbox' ? input.checked : true` — the activity test
for an element's primary setting (a missing input yields `true`). -/
def isActiveInput : Option InputEl → Bool
  | some i => if i.ty = "checkbox" then i.checked else true
  | none => true

/-- `extraInput?.type === 'checkbox' ? extraInput.checked :
!!extraInput?.value` — the activity test for an extra option's input (a
missing input yields `false`). -/
def extraActive : Option InputEl → Bool
  | some i => if i.ty = "checkbox" then i.checked else i.value ≠ ""
  | none => false

/-- `element.type || "both"` (an absent or empty type defaults to
`"both"`). -/
def elemTypeOf (e : ElementDef) : String :=
  match e.ty with
  | some t => if t = "" then "both" else t
  | none => "both"

/-- `if (x) list.push(x)` for an optional string field. -/
def pushIfTruthy (l : List String) (s : Option String) : List String :=
  match s with
  | some v => if v ≠ "" then l ++ [v] else l
  | none => l

/-- The elements a `pushIfTruthy` call appends. -/
def truthySuffix : Option String → List String
  | some v => if v ≠ "" then [v] else []
  | none => []

/-- The body of the `extra_options` loop inside `collectThemeAssets`. -/
def collectExtra (reader : Reader) (env : EnvMap) (acc : Assets)
    (optKey : String) (optValue : ExtraOption) : Assets :=
  if optValue.ty = "ignore" then
    { acc with jsOptions := acc.jsOptions ++ [(optKey, env optKey)] }
  else
    let extraInput := reader optKey
    if extraActive extraInput then
      { cssFiles := pushIfTruthy acc.cssFiles optValue.css
        jsFiles := pushIfTruthy acc.jsFiles optValue.js
        jsOptions :=
          match extraInput with
          | some i => if i.value ≠ "" then acc.jsOptions ++ [(optKey, some i.value)] else acc.jsOptions
          | none => acc.jsOptions }
    else acc

/-- The body of the element loop inside `collectThemeAssets`: early return
on `!isActive || !element.file`, then CSS/JS pushes by type, then the
`extra_options` loop. -/
def collectElement (reader : Reader) (env : EnvMap) (selectedTheme : String)
    (acc : Assets) (element : ElementDef) : Assets :=
  if ¬ (isActiveInput (reader element.setting) ∧ truthy element.file) then acc
  else
    let file := element.file.getD ""
    let ty := elemTypeOf element
    let acc :=
      if ty = "css" ∨ ty = "both" then
        { acc with cssFiles := acc.cssFiles ++ [assetUrl "css" selectedTheme file] }
      else acc
    let acc :=
      if ty = "js" ∨ ty = "both" then
        { acc with jsFiles := acc.jsFiles ++ [assetUrl "js" selectedTheme file] }
      else acc
    element.extra_options.foldl (fun a kv => collectExtra reader env a kv.1 kv.2) acc

/-- `collectThemeAssets(themeData, selectedTheme)`: fold the element loop
over the theme's elements in declared order, starting from empty lists. -/
def collectThemeAssets (themeData : ThemeData) (selectedTheme : String)
    (reader : Reader) (env : EnvMap) : Assets :=
  themeData.elements.foldl (fun acc kv => collectElement reader env selectedTheme acc kv.2)
    ⟨[], [], []⟩

/-- The activity test as the SPEC words it (claim C4): checkbox state if
checkbox-typed, else presence of a non-empty value.  This is the
spec-side definition to be compared against `isActiveInput`, which is the
code's test. -/
def specPrimaryActive : Option InputEl → Bool
  | some i => if i.ty = "checkbox" then i.checked else i.value ≠ ""
  | none => false

/-! ### The iframe document and `cleanOldAssets` -/

/-- Tag name of a DOM element in the isolated document. -/
inductive Tag
  | link
  | script
  | other (name : String)
deriving Repr, DecidableEq

/-- A DOM element of the isolated document: tag, optional `data-theme`
marker, and its text payload (`href` for links, `textContent` for
scripts). -/
structure DomElem where
  tag : Tag
  dataTheme : Option String
  text : String
deriving Repr, DecidableEq

/-- The isolated document, as the list of its elements in document
order. -/
abbrev Doc : Type := List DomElem

/-- Whether `querySelectorAll('link[data-theme], script[data-theme]')`
selects this element. -/
def isTaggedAsset (e : DomElem) : Bool :=
  (e.tag = Tag.link ∨ e.tag = Tag.script) ∧ e.dataTheme.isSome

/-- `cleanOldAssets(doc)`: remove every selected element. -/
def cleanOldAssets (doc : Doc) : Doc :=
  doc.filter (fun e => ¬ isTaggedAsset e)

/-- `injectCSSFiles(doc, cssFiles, selectedTheme)`: append one stylesheet
link per URL, in input order, each tagged with the theme. -/
def injectCSSFiles (doc : Doc) (cssFiles : List String) (selectedTheme : String) : Doc :=
  doc ++ cssFiles.map (fun href => ⟨Tag.link, some selectedTheme, href⟩)

/-! ### Device layout (`DEVICE_CONFIG`, `positionIframe`,
`switchToDevice`) -/

/-- One entry of `DEVICE_CONFIG`. -/
structure DeviceProfile where
  baseWidth : ℚ
  container : String
  screen : String
deriving Repr, DecidableEq

/-- `DEVICE_CONFIG` as a lookup from device key. -/
def DEVICE_CONFIG : String → Option DeviceProfile
  | "ordi" => some ⟨1300, ".monitor-preview", ".screenOrdi .content"⟩
  | "tel" => some ⟨500, ".iphone", ".iphone .screenMobile"⟩
  | "tablet" => some ⟨800, ".ipad", ".ipad .screenMobile"⟩
  | _ => none

/-- A rendered bounding rectangle (`getBoundingClientRect`). -/
structure Rect where
  left : ℚ
  top : ℚ
  width : ℚ
  height : ℚ
deriving Repr, DecidableEq

/-- A CSS `translate(tx, ty) scale(s)` transform. -/
structure TransformVal where
  tx : ℚ
  ty : ℚ
  scale : ℚ
deriving Repr, DecidableEq

/-- The style fields `positionIframe` writes on the iframe and on the
overlay. -/
structure FrameStyle where
  transform : TransformVal
  width : ℚ
  height : ℚ
deriving Repr, DecidableEq

/-- The two styles written by one `positionIframe` pass. -/
structure LayoutResult where
  iframeStyle : FrameStyle
  overlayStyle : FrameStyle
deriving Repr, DecidableEq

/-- `positionIframe()`: guarded no-op when the iframe, the initialized
flag, the overlay, the device config or the screen element is missing;
otherwise compute `scale = rect.width / baseWidth` and write transform,
width `baseWidth` and height `rect.height / scale` to the iframe, then
the same three fields to the overlay.  `screenRect` models
`document.querySelector(config.screen).getBoundingClientRect()`. -/
def positionIframe (iframePresent inited overlayPresent : Bool)
    (currentDevice : String) (screenRect : String → Option Rect) : Option LayoutResult :=
  if ¬ iframePresent ∨ ¬ inited ∨ ¬ overlayPresent then none
  else
    match DEVICE_CONFIG currentDevice with
    | none => none
    | some config =>
      match screenRect config.screen with
      | none => none
      | some rect =>
        let scale := rect.width / config.baseWidth
        let iframeStyle : FrameStyle :=
          ⟨⟨rect.left, rect.top, scale⟩, config.baseWidth, rect.height / scale⟩
        let overlayStyle : FrameStyle :=
          ⟨⟨rect.left, rect.top, scale⟩, config.baseWidth, rect.height / scale⟩
        some ⟨iframeStyle, overlayStyle⟩

/-- The module-level preview state touched by `switchToDevice`. -/
structure DeviceState where
  currentDevice : String
  iframePresent : Bool
  inited : Bool
deriving Repr, DecidableEq

/-- `switchToDevice(deviceKey)` followed by the iframe's `onload` handler:
unknown keys are rejected; otherwise the current device is set; with no
iframe yet, `createIframe()` runs and the function returns without
repositioning; with an iframe, the reload's `onload` sets the initialized
flag and runs `positionIframe`.  Returns the state after the call settles
and the layout the `onload` handler computed (if any). -/
def switchToDevice (deviceKey : String) (st : DeviceState)
    (overlayPresent : Bool) (screenRect : String → Option Rect) :
    DeviceState × Option LayoutResult :=
  if (DEVICE_CONFIG deviceKey).isNone then (st, none)
  else
    let st1 : DeviceState := { st with currentDevice := deviceKey }
    if ¬ st1.iframePresent then ({ st1 with iframePresent := true }, none)
    else
      let st2 : DeviceState := { st1 with inited := true }
      (st2, positionIframe st2.iframePresent st2.inited overlayPresent st2.currentDevice screenRect)

/-! ### Asynchronous JS injection (`injectJSFilesAsync`)

Fetches are issued for the de-duplicated URL list; each fetch's
continuation appends an inline script and (when the document's readyState
is `complete` or `interactive`) dispatches a synthetic `DOMContentLoaded`
event.  The single-threaded event loop runs these continuations in the
order the fetches settle — an arbitrary interleaving, modelled as an
explicit permutation `order` of the fetch indices. -/

/-- `[...new Set(jsFiles)]`: de-duplication keeping the first occurrence
of each URL, in order. -/
def uniqueFirstAux (seen : List String) : List String → List String
  | [] => []
  | x :: xs => if x ∈ seen then uniqueFirstAux seen xs else x :: uniqueFirstAux (x :: seen) xs

/-- De-duplicated URL list, first occurrences kept in order. -/
def uniqueFirst (l : List String) : List String := uniqueFirstAux [] l

/-- The fetch oracle: the text a URL's fetch-and-read resolves to, or the
error it rejects with. -/
abbrev FetchOracle : Type := String → Except String String

/-- One observable event of the injection choreography. -/
inductive JsEvent
  | appendScript (url : String) (code : String)
  | dispatchDOMContentLoaded
deriving Repr, DecidableEq

/-- The events of the continuation run when fetch number `i` settles:
append the inline script on success (followed by the synthetic
DOMContentLoaded dispatch when `ready` — i.e. `doc.readyState` is
`complete` or `interactive`), nothing on a caught failure. -/
def fetchContinuation (files : List String) (fetch : FetchOracle) (ready : Bool)
    (i : Nat) : List JsEvent :=
  match files.get? i with
  | none => []
  | some src =>
    match fetch src with
    | .ok code => .appendScript src code :: (if ready then [.dispatchDOMContentLoaded] else [])
    | .error _ => []

/-- The full event trace of one injection run, under completion
interleaving `order`. -/
def injectEvents (files : List String) (fetch : FetchOracle) (order : List Nat)
    (ready : Bool) : List JsEvent :=
  (order.map (fetchContinuation files fetch ready)).flatten

/-- The messages logged by the per-fetch `.catch` handlers, in completion
order. -/
def injectErrors (files : List String) (fetch : FetchOracle) (order : List Nat) :
    List String :=
  (order.map (fun i =>
    match files.get? i with
    | none => []
    | some src =>
      match fetch src with
      | .ok _ => []
      | .error e => [e])).flatten

/-- The URLs of the scripts appended by a trace, in append order. -/
def appendedUrls (evts : List JsEvent) : List String :=
  evts.filterMap (fun e =>
    match e with
    | .appendScript u _ => some u
    | _ => none)

/-- The settled value of one element of `loadPromises`: the fetch chain
with its trailing `.catch`, which converts any rejection into a
resolution. -/
def loadPromise (fetch : FetchOracle) (src : String) : Except String Unit :=
  match (fetch src).map (fun _ => ()) with
  | .ok u => .ok u
  | .error _ => .ok ()

/-- `Promise.all`: resolves with all values iff every promise resolved,
rejects with the first rejection otherwise. -/
def promiseAll (ps : List (Except String Unit)) : Except String (List Unit) :=
  ps.foldr
    (fun p acc =>
      match p, acc with
      | .ok a, .ok l => .ok (a :: l)
      | .error e, _ => .error e
      | .ok _, .error e => .error e)
    (.ok [])

/-- The settled state of the promise returned by `injectJSFilesAsync`:
`Promise.all` over the per-URL fetch-inject-catch chains. -/
def injectJSResult (jsFiles : List String) (fetch : FetchOracle) :
    Except String (List Unit) :=
  promiseAll ((uniqueFirst jsFiles).map (loadPromise fetch))

/-- `generateOptionsScript(selectedTheme, jsOptions)`: empty string for no
options, else the assignment to the theme-namespaced global.  The
serialized object payload is abstracted by its assignment trace's
`toString`, which the claims never inspect. -/
def generateOptionsScript (selectedTheme : String)
    (jsOptions : List (String × Option String)) : String :=
  if jsOptions = [] then ""
  else "window[\"" ++ selectedTheme ++ "ThemeOptions\"] = " ++ toString (repr jsOptions) ++ ";"

/-- `injectJSFilesAsync(doc, jsFiles, selectedTheme, jsOptions)` under
completion interleaving `order`: append the options script when
non-empty, then append one tagged inline script per successful fetch of
the de-duplicated URL list, in completion order.  Returns the final
document, the event trace of the per-fetch continuations, and the error
log. -/
def injectJSFilesAsync (doc : Doc) (jsFiles : List String) (selectedTheme : String)
    (jsOptions : List (String × Option String)) (fetch : FetchOracle)
    (order : List Nat) (ready : Bool) : Doc × List JsEvent × List String :=
  let optionsScript := generateOptionsScript selectedTheme jsOptions
  let doc1 := if optionsScript ≠ "" then doc ++ [⟨Tag.script, some selectedTheme, optionsScript⟩] else doc
  let files := uniqueFirst jsFiles
  let evts := injectEvents files fetch order ready
  (doc1 ++ evts.filterMap (fun e =>
      match e with
      | .appendScript _ code => some ⟨Tag.script, some selectedTheme, code⟩
      | .dispatchDOMContentLoaded => none),
   evts, injectErrors files fetch order)

/-- Whether some `DOMContentLoaded` dispatch is strictly followed, later
in the trace, by a script append. -/
def appendAfterDispatch : List JsEvent → Bool
  | [] => false
  | .dispatchDOMContentLoaded :: rest =>
    (rest.any fun e =>
      match e with
      | .appendScript _ _ => true
      | _ => false) || appendAfterDispatch rest
  | .appendScript _ _ :: rest => appendAfterDispatch rest

/-- Whether every script append is immediately followed by a
`DOMContentLoaded` dispatch. -/
def appendsFollowed : List JsEvent → Bool
  | [] => true
  | .appendScript _ _ :: rest =>
    match rest with
    | .dispatchDOMContentLoaded :: _ => appendsFollowed rest
    | _ => false
  | .dispatchDOMContentLoaded :: rest => appendsFollowed rest

/-! ### `updatePreview` -/

/-- The admin-page UI state `updatePreview` manipulates: overlay
visibility and the disabled state of the preview/create buttons. -/
structure UIState where
  overlayVisible : Bool
  buttonsDisabled : Bool
deriving Repr, DecidableEq

/-- `showLoadingOverlay()`. -/
def showLoadingOverlay (s : UIState) : UIState := { s with overlayVisible := true }

/-- `hideLoadingOverlay()` (after its fixed grace delay). -/
def hideLoadingOverlay (s : UIState) : UIState := { s with overlayVisible := false }

/-- How one `updatePreview` call returned. -/
inductive UpdateOutcome
  | abortedNoIframe
  | abortedNoThemeData
  | abortedNoDoc
  | completed
deriving Repr, DecidableEq

/-- `updatePreview(rawThemes, themeName)`: show overlay, disable the
preview/create buttons, then abort (a plain `return`, no exception) if
the preview iframe is missing, the theme data is missing, or the reloaded
iframe's document is inaccessible; otherwise clean old assets, collect,
inject CSS then JS, hide the overlay and re-enable the buttons.  The
iframe-missing abort returns before any `hideLoadingOverlay`; the other
two aborts hide the overlay but return before `toggleButtons(..., false)`.
Returns the final UI state, the final document (when accessible) and the
outcome. -/
def updatePreview (iframePresent : Bool) (themeData : Option ThemeData)
    (themeName : String) (docAccess : Option Doc) (reader : Reader) (env : EnvMap)
    (fetch : FetchOracle) (order : List Nat) (ready : Bool) (s : UIState) :
    UIState × Option Doc × UpdateOutcome :=
  let s1 := showLoadingOverlay s
  let s2 : UIState := { s1 with buttonsDisabled := true }
  if ¬ iframePresent then (s2, docAccess, .abortedNoIframe)
  else
    match themeData with
    | none => (hideLoadingOverlay s2, docAccess, .abortedNoThemeData)
    | some td =>
      match docAccess with
      | none => (hideLoadingOverlay s2, none, .abortedNoDoc)
      | some doc =>
        let doc1 := cleanOldAssets doc
        let assets := collectThemeAssets td themeName reader env
        let doc2 := injectCSSFiles doc1 assets.cssFiles themeName
        let doc3 := (injectJSFilesAsync doc2 assets.jsFiles themeName assets.jsOptions fetch order ready).1
        ({ hideLoadingOverlay s2 with buttonsDisabled := false }, some doc3, .completed)

/-! ### Concrete instances used by closed theorems -/

/-- A fetch oracle where every URL resolves. -/
def okFetch : FetchOracle := fun s => .ok ("// code of " ++ s)

/-- A fetch oracle where `a.js` rejects and every other URL resolves. -/
def mixedFetch : FetchOracle :=
  fun s => if s = "a.js" then .error "neterr" else .ok ("// code of " ++ s)

/-- A theme with one js element whose primary setting is a text input. -/
def textSettingTheme : ThemeData := ⟨[("snow", ⟨"s1", some "snow.js", some "js", []⟩)]⟩

/-- A reader where `s1` is a text input holding the empty string. -/
def emptyTextReader : Reader :=
  fun x => if x = "s1" then some ⟨"text", false, ""⟩ else none

/-- A theme with one js element guarded by a checkbox, carrying one
`ignore`-typed extra option under key `k`. -/
def ignoreOptionTheme : ThemeData :=
  ⟨[("el", ⟨"chk", some "f.js", some "js", [("k", ⟨"ignore", none, none⟩)]⟩)]⟩

/-- A reader where `chk` is an unchecked checkbox. -/
def uncheckedReader : Reader :=
  fun x => if x = "chk" then some ⟨"checkbox", false, ""⟩ else none

/-- An environment where the global `k` holds `"V"`. -/
def kEnv : EnvMap := fun x => if x = "k" then some "V" else none

/-- Screen rectangles: the phone screen region renders 325px wide and
650px tall at the viewport origin. -/
def phoneScreenRect : String → Option Rect :=
  fun s => if s = ".iphone .screenMobile" then some ⟨0, 0, 325, 650⟩ else none

/-- Screen rectangles: the desktop screen region renders 650×400 at
offset (10, 20). -/
def desktopScreenRect : String → Option Rect :=
  fun s => if s = ".screenOrdi .content" then some ⟨10, 20, 650, 400⟩ else none

/-! ## Theorems -/

/-- `pushIfTruthy` only appends. -/
theorem pushIfTruthy_eq (l : List String) (s : Option String) :
    pushIfTruthy l s = l ++ truthySuffix s := by
  cases s with
  | none => simp [pushIfTruthy, truthySuffix]
  | some v => by_cases h : v = "" <;> simp [pushIfTruthy, truthySuffix, h]

/-- One `extra_options` step only appends to each field of the
accumulator. -/
theorem collectExtra_extends (reader : Reader) (env : EnvMap) (acc : Assets)
    (k : String) (v : ExtraOption) :
    ∃ c j o, collectExtra reader env acc k v =
      ⟨acc.cssFiles ++ c, acc.jsFiles ++ j, acc.jsOptions ++ o⟩ := by
  unfold collectExtra
  by_cases hig : v.ty = "ignore"
  · exact ⟨[], [], [(k, env k)], by simp [hig]⟩
  · rw [if_neg hig]
    by_cases hact : extraActive (reader k) = true
    · rw [if_pos hact]
      cases hr : reader k with
      | none =>
        exact ⟨truthySuffix v.css, truthySuffix v.js, [],
          by simp [pushIfTruthy_eq]⟩
      | some i =>
        by_cases hv : i.value ≠ ""
        · exact ⟨truthySuffix v.css, truthySuffix v.js, [(k, some i.value)],
            by simp [pushIfTruthy_eq, hv]⟩
        · exact ⟨truthySuffix v.css, truthySuffix v.js, [],
            by simp [pushIfTruthy_eq, hv]⟩
    · rw [if_neg hact]
      exact ⟨[], [], [], by simp⟩

/-- The whole `extra_options` loop only appends to each field of the
accumulator. -/
theorem extrasFold_extends (reader : Reader) (env : EnvMap)
    (extras : List (String × ExtraOption)) (acc : Assets) :
    ∃ c j o, extras.foldl (fun a kv => collectExtra reader env a kv.1 kv.2) acc =
      ⟨acc.cssFiles ++ c, acc.jsFiles ++ j, acc.jsOptions ++ o⟩ := by
  induction extras generalizing acc with
  | nil => exact ⟨[], [], [], by simp⟩
  | cons kv rest ih =>
    obtain ⟨c₀, j₀, o₀, h₀⟩ := collectExtra_extends reader env acc kv.1 kv.2
    obtain ⟨c₁, j₁, o₁, h₁⟩ := ih (collectExtra reader env acc kv.1 kv.2)
    refine ⟨c₀ ++ c₁, j₀ ++ j₁, o₀ ++ o₁, ?_⟩
    rw [List.foldl_cons, h₁, h₀]
    simp [List.append_assoc]

/-- An `ignore`-typed entry of the `extra_options` loop records the
environment value under its key, whatever the inputs hold. -/
theorem extrasFold_mem_ignore (reader : Reader) (env : EnvMap)
    (extras : List (String × ExtraOption)) (acc : Assets) (k : String) (v : ExtraOption)
    (hmem : (k, v) ∈ extras) (hty : v.ty = "ignore") :
    (k, env k) ∈ (extras.foldl (fun a kv => collectExtra reader env a kv.1 kv.2) acc).jsOptions := by
  induction extras generalizing acc with
  | nil => cases hmem
  | cons kv rest ih =>
    rw [List.foldl_cons]
    rcases List.mem_cons.mp hmem with heq | hmem'
    · obtain ⟨c, j, o, hfold⟩ := extrasFold_extends reader env rest
        (collectExtra reader env acc kv.1 kv.2)
      rw [hfold]
      have hkv : collectExtra reader env acc kv.1 kv.2 =
          { acc with jsOptions := acc.jsOptions ++ [(k, env k)] } := by
        rw [← heq]
        simp [collectExtra, hty]
      rw [hkv]
      simp
    · exact ih _ hmem'

/-- `collectExtra` reads the inputs only at its own key. -/
theorem collectExtra_reader_congr (reader reader' : Reader) (env : EnvMap)
    (acc : Assets) (k : String) (v : ExtraOption) (h : reader k = reader' k) :
    collectExtra reader env acc k v = collectExtra reader' env acc k v := by
  unfold collectExtra
  rw [h]

/-- The element loop's early return: an element whose primary gate fails
leaves the accumulator untouched. -/
theorem collectElement_skip (reader : Reader) (env : EnvMap) (theme : String)
    (acc : Assets) (el : ElementDef)
    (h : ¬ (isActiveInput (reader el.setting) ∧ truthy el.file)) :
    collectElement reader env theme acc el = acc := by
  unfold collectElement
  rw [if_pos h]

/-- The element loop on an element whose primary gate holds: push the
css/js URLs selected by the element's type, then run the `extra_options`
loop. -/
theorem collectElement_active_eq (reader : Reader) (env : EnvMap) (theme : String)
    (acc : Assets) (el : ElementDef)
    (h : isActiveInput (reader el.setting) ∧ truthy el.file) :
    collectElement reader env theme acc el =
      el.extra_options.foldl (fun a kv => collectExtra reader env a kv.1 kv.2)
        ⟨acc.cssFiles ++
            (if elemTypeOf el = "css" ∨ elemTypeOf el = "both"
              then [assetUrl "css" theme (el.file.getD "")] else []),
          acc.jsFiles ++
            (if elemTypeOf el = "js" ∨ elemTypeOf el = "both"
              then [assetUrl "js" theme (el.file.getD "")] else []),
          acc.jsOptions⟩ := by
  unfold collectElement
  rw [if_neg (not_not_intro h)]
  by_cases hc : elemTypeOf el = "css" ∨ elemTypeOf el = "both" <;>
    by_cases hj : elemTypeOf el = "js" ∨ elemTypeOf el = "both"
  · simp [hc, hj]
  · simp [hc, hj]
  · simp [hc, hj]
  · simp [hc, hj]

/-- C2: after `cleanOldAssets(doc)` no stylesheet or script element with a
theme tag remains, for any prior contents; the operation is idempotent and
is the identity on a document with no tagged elements. -/
theorem C2_cleanOldAssets (doc : Doc) :
    (∀ e ∈ cleanOldAssets doc, isTaggedAsset e = false) ∧
    cleanOldAssets (cleanOldAssets doc) = cleanOldAssets doc ∧
    ((∀ e ∈ doc, isTaggedAsset e = false) → cleanOldAssets doc = doc) := by
  refine ⟨?_, ?_, ?_⟩
  · intro e he
    have h := List.mem_filter.mp he
    simpa using h.2
  · simp [cleanOldAssets, List.filter_filter]
  · intro h
    rw [cleanOldAssets, List.filter_eq_self]
    intro e he
    simp [h e he]

theorem C2_cleanOldAssets_witness :
    cleanOldAssets [⟨Tag.other "div", none, ""⟩] = [⟨Tag.other "div", none, ""⟩] :=
  (C2_cleanOldAssets [⟨Tag.other "div", none, ""⟩]).2.2 (by decide)

/-- C3 counterexample: `updatePreview` invoked while the preview surface
(`theme-preview` iframe) is missing aborts with the loading overlay still
visible and the preview/create triggers still disabled — the claim says
every such abort ends with the overlay hidden and the triggers
re-enabled. -/
theorem C3_abort_counterexample :
    (updatePreview false (some ⟨[]⟩) "winter" (some []) (fun _ => none) (fun _ => none)
        okFetch [] true ⟨false, false⟩).2.2 = UpdateOutcome.abortedNoIframe ∧
    (updatePreview false (some ⟨[]⟩) "winter" (some []) (fun _ => none) (fun _ => none)
        okFetch [] true ⟨false, false⟩).1.overlayVisible = true ∧
    (updatePreview false (some ⟨[]⟩) "winter" (some []) (fun _ => none) (fun _ => none)
        okFetch [] true ⟨false, false⟩).1.buttonsDisabled = true :=
  ⟨rfl, rfl, rfl⟩

/-- C3 amended: every abort path of `updatePreview` returns an outcome
rather than throwing, but leaves the triggers disabled; the overlay ends
hidden on the missing-theme-data and inaccessible-document aborts, yet
stays visible on the missing-surface abort. -/
theorem C3_abort_amended (b : Option ThemeData) (n : String) (d : Option Doc)
    (reader : Reader) (env : EnvMap) (fetch : FetchOracle) (order : List Nat)
    (ready : Bool) (s : UIState) :
    (updatePreview false b n d reader env fetch order ready s
      = (⟨true, true⟩, d, .abortedNoIframe)) ∧
    (updatePreview true none n d reader env fetch order ready s
      = (⟨false, true⟩, d, .abortedNoThemeData)) ∧
    (∀ td, updatePreview true (some td) n none reader env fetch order ready s
      = (⟨false, true⟩, none, .abortedNoDoc)) := by
  refine ⟨rfl, ?_, fun td => rfl⟩
  cases b <;> rfl

/-- C6: when the device config and its screen rectangle resolve,
`positionIframe` computes `scale = width / baseWidth`, sets the preview's
logical width to `baseWidth` and its logical height to `height / scale`,
and writes to the loading overlay exactly the same transform, width and
height as to the preview frame. -/
theorem C6_positionIframe (dev : String) (config : DeviceProfile)
    (sr : String → Option Rect) (rect : Rect)
    (hc : DEVICE_CONFIG dev = some config) (hr : sr config.screen = some rect) :
    ∃ r : LayoutResult,
      positionIframe true true true dev sr = some r ∧
      r.overlayStyle = r.iframeStyle ∧
      r.iframeStyle.transform.scale = rect.width / config.baseWidth ∧
      r.iframeStyle.width = config.baseWidth ∧
      r.iframeStyle.height = rect.height / (rect.width / config.baseWidth) := by
  refine ⟨⟨⟨⟨rect.left, rect.top, rect.width / config.baseWidth⟩, config.baseWidth,
      rect.height / (rect.width / config.baseWidth)⟩,
    ⟨⟨rect.left, rect.top, rect.width / config.baseWidth⟩, config.baseWidth,
      rect.height / (rect.width / config.baseWidth)⟩⟩, ?_, rfl, rfl, rfl, rfl⟩
  simp [positionIframe, hc, hr]

theorem C6_positionIframe_witness :
    ∃ r : LayoutResult,
      positionIframe true true true "ordi" desktopScreenRect = some r ∧
      r.overlayStyle = r.iframeStyle ∧
      r.iframeStyle.transform.scale = (650 : ℚ) / 1300 ∧
      r.iframeStyle.width = (1300 : ℚ) ∧
      r.iframeStyle.height = (400 : ℚ) / ((650 : ℚ) / 1300) :=
  C6_positionIframe "ordi" ⟨1300, ".monitor-preview", ".screenOrdi .content"⟩
    desktopScreenRect ⟨10, 20, 650, 400⟩ rfl rfl

/-- C7 counterexample: switching from desktop to the phone device with the
phone screen region rendering 325×650 yields `scale = 0.65` (since the
phone profile's baseWidth is 500) and preview height 1000 — not the
claimed `scale = 0.25` and height 2600. -/
theorem C7_phone_counterexample :
    (switchToDevice "tel" ⟨"ordi", true, true⟩ true phoneScreenRect).2 =
      some ⟨⟨⟨0, 0, 13/20⟩, 500, 1000⟩, ⟨⟨0, 0, 13/20⟩, 500, 1000⟩⟩ ∧
    ¬ ((switchToDevice "tel" ⟨"ordi", true, true⟩ true phoneScreenRect).2.map
        (fun r => r.iframeStyle.transform.scale) = some (1/4 : ℚ)) ∧
    ¬ ((switchToDevice "tel" ⟨"ordi", true, true⟩ true phoneScreenRect).2.map
        (fun r => r.iframeStyle.height) = some (2600 : ℚ)) := by
  have h : (switchToDevice "tel" ⟨"ordi", true, true⟩ true phoneScreenRect).2 =
      some ⟨⟨⟨0, 0, 13/20⟩, 500, 1000⟩, ⟨⟨0, 0, 13/20⟩, 500, 1000⟩⟩ := by
    simp only [switchToDevice, positionIframe, DEVICE_CONFIG, phoneScreenRect]
    norm_num
  rw [h]
  exact ⟨rfl, by simp; norm_num, by simp⟩

/-- C7 amended: the same scenario yields `scale = 13/20`, preview width
500 (the phone profile's baseWidth) and preview height 1000, with the
current device state updated to `tel`. -/
theorem C7_phone_amended :
    (switchToDevice "tel" ⟨"ordi", true, true⟩ true phoneScreenRect).1.currentDevice = "tel" ∧
    (switchToDevice "tel" ⟨"ordi", true, true⟩ true phoneScreenRect).2.map
        (fun r => r.iframeStyle.transform.scale) = some (13/20 : ℚ) ∧
    (switchToDevice "tel" ⟨"ordi", true, true⟩ true phoneScreenRect).2.map
        (fun r => r.iframeStyle.width) = some (500 : ℚ) ∧
    (switchToDevice "tel" ⟨"ordi", true, true⟩ true phoneScreenRect).2.map
        (fun r => r.iframeStyle.height) = some (1000 : ℚ) := by
  have h : (switchToDevice "tel" ⟨"ordi", true, true⟩ true phoneScreenRect).2 =
      some ⟨⟨⟨0, 0, 13/20⟩, 500, 1000⟩, ⟨⟨0, 0, 13/20⟩, 500, 1000⟩⟩ := by
    simp only [switchToDevice, positionIframe, DEVICE_CONFIG, phoneScreenRect]
    norm_num
  rw [h]
  exact ⟨rfl, by simp, by simp, by simp⟩

/-- C4 counterexample: an element whose primary setting resolves to a
non-checkbox input holding the empty string — inactive per the claim's
reading of "active" — still contributes its JS asset URL, because the
code treats every non-checkbox primary input as active. -/
theorem C4_active_counterexample :
    specPrimaryActive (emptyTextReader "s1") = false ∧
    truthy (some "snow.js") = true ∧
    (collectThemeAssets textSettingTheme "winter" emptyTextReader (fun _ => none)).jsFiles
      = [assetUrl "js" "winter" "snow.js"] ∧
    (collectThemeAssets textSettingTheme "winter" emptyTextReader (fun _ => none)).jsFiles
      ≠ [] := by
  refine ⟨rfl, rfl, rfl, ?_⟩
  intro hbad
  rw [show (collectThemeAssets textSettingTheme "winter" emptyTextReader (fun _ => none)).jsFiles
      = [assetUrl "js" "winter" "snow.js"] from rfl] at hbad
  cases hbad

/-- C4 amended: an element contributes asset URLs exactly when it declares
a (non-empty) file AND its primary setting is active in the code's sense —
the checkbox's checked state if the input is checkbox-typed, and
unconditionally active otherwise (any value, even empty, and also when no
input resolves); the contributed URLs are the element's own css/js URLs by
type followed by its extra-option contributions. -/
theorem C4_contribution_amended (reader : Reader) (env : EnvMap) (theme : String)
    (acc : Assets) (el : ElementDef) :
    (¬ (isActiveInput (reader el.setting) ∧ truthy el.file) →
        collectElement reader env theme acc el = acc) ∧
    ((isActiveInput (reader el.setting) ∧ truthy el.file) →
      ∃ restC restJ restO,
        collectElement reader env theme acc el =
          ⟨acc.cssFiles ++
              (if elemTypeOf el = "css" ∨ elemTypeOf el = "both"
                then [assetUrl "css" theme (el.file.getD "")] else []) ++ restC,
            acc.jsFiles ++
              (if elemTypeOf el = "js" ∨ elemTypeOf el = "both"
                then [assetUrl "js" theme (el.file.getD "")] else []) ++ restJ,
            acc.jsOptions ++ restO⟩) := by
  constructor
  · exact collectElement_skip reader env theme acc el
  · intro h
    rw [collectElement_active_eq reader env theme acc el h]
    obtain ⟨c, j, o, hfold⟩ := extrasFold_extends reader env el.extra_options _
    exact ⟨c, j, o, by rw [hfold]⟩

theorem C4_contribution_amended_witness :
    ∃ restC restJ restO,
      collectElement emptyTextReader (fun _ => none) "winter" ⟨[], [], []⟩
          ⟨"s1", some "snow.js", some "js", []⟩ =
        ⟨([] : List String) ++
            (if elemTypeOf ⟨"s1", some "snow.js", some "js", []⟩ = "css" ∨
                elemTypeOf ⟨"s1", some "snow.js", some "js", []⟩ = "both"
              then [assetUrl "css" "winter" "snow.js"] else []) ++ restC,
          ([] : List String) ++
            (if elemTypeOf ⟨"s1", some "snow.js", some "js", []⟩ = "js" ∨
                elemTypeOf ⟨"s1", some "snow.js", some "js", []⟩ = "both"
              then [assetUrl "js" "winter" "snow.js"] else []) ++ restJ,
          ([] : List (String × Option String)) ++ restO⟩ :=
  (C4_contribution_amended emptyTextReader (fun _ => none) "winter" ⟨[], [], []⟩
    ⟨"s1", some "snow.js", some "js", []⟩).2 (by decide)

/-- C5 counterexample: an `ignore`-typed extra option under key `k` is NOT
copied into `jsOptions` when the parent element's primary checkbox is
unchecked — the whole element, extra options included, is skipped by the
early return, so `jsOptions` stays empty. -/
theorem C5_ignore_counterexample :
    kEnv "k" = some "V" ∧
    (collectThemeAssets ignoreOptionTheme "t" uncheckedReader kEnv).jsOptions = [] ∧
    ("k", some "V") ∉ (collectThemeAssets ignoreOptionTheme "t" uncheckedReader kEnv).jsOptions := by
  refine ⟨rfl, rfl, ?_⟩
  intro hbad
  rw [show (collectThemeAssets ignoreOptionTheme "t" uncheckedReader kEnv).jsOptions
      = [] from rfl] at hbad
  cases hbad

/-- C5 amended: once the parent element passes its primary gate (active
primary setting AND a declared file), an `ignore`-typed extra option under
key `k` records the environment map's value for `k` into `jsOptions`
unconditionally — regardless of the state of the extra option's own
input. -/
theorem C5_ignore_amended (reader : Reader) (env : EnvMap) (theme : String)
    (acc : Assets) (el : ElementDef) (k : String) (v : ExtraOption)
    (hgate : isActiveInput (reader el.setting) ∧ truthy el.file)
    (hmem : (k, v) ∈ el.extra_options) (hty : v.ty = "ignore") :
    (k, env k) ∈ (collectElement reader env theme acc el).jsOptions := by
  rw [collectElement_active_eq reader env theme acc el hgate]
  exact extrasFold_mem_ignore reader env el.extra_options _ k v hmem hty

theorem C5_ignore_amended_witness :
    ("k", some "V") ∈
      (collectElement (fun x => if x = "chk" then some ⟨"checkbox", true, ""⟩ else none)
        kEnv "t" ⟨[], [], []⟩
        ⟨"chk", some "f.js", some "js", [("k", ⟨"ignore", none, none⟩)]⟩).jsOptions :=
  C5_ignore_amended (fun x => if x = "chk" then some ⟨"checkbox", true, ""⟩ else none)
    kEnv "t" ⟨[], [], []⟩ ⟨"chk", some "f.js", some "js", [("k", ⟨"ignore", none, none⟩)]⟩
    "k" ⟨"ignore", none, none⟩ (by decide) (by decide) rfl

/-- C10: when the primary setting identifier resolves to no input at all,
the element counts as active, and (provided no extra option shares the
setting's identifier) asset collection for the element is identical to
collection with an active (checked) checkbox present. -/
theorem C10_missing_input (reader : Reader) (env : EnvMap) (theme : String)
    (acc : Assets) (el : ElementDef)
    (hnone : reader el.setting = none)
    (hkeys : ∀ kv ∈ el.extra_options, kv.1 ≠ el.setting) :
    isActiveInput (reader el.setting) = true ∧
    collectElement reader env theme acc el =
      collectElement (fun x => if x = el.setting then some ⟨"checkbox", true, ""⟩ else reader x)
        env theme acc el := by
  have h1 : isActiveInput (reader el.setting) = true := by rw [hnone]; rfl
  refine ⟨h1, ?_⟩
  have h2 : isActiveInput
      ((fun x => if x = el.setting then some (⟨"checkbox", true, ""⟩ : InputEl) else reader x)
        el.setting) = true := by
    simp [isActiveInput]
  by_cases hf : truthy el.file
  · rw [collectElement_active_eq reader env theme acc el ⟨h1, hf⟩,
      collectElement_active_eq _ env theme acc el ⟨h2, hf⟩]
    apply List.foldl_ext
    intro a kv hkv
    exact collectExtra_reader_congr reader _ env a kv.1 kv.2
      (by rw [if_neg (hkeys kv hkv)])
  · rw [collectElement_skip reader env theme acc el (fun hg => hf hg.2),
      collectElement_skip _ env theme acc el (fun hg => hf hg.2)]

/-- `appendedUrls` membership unfolds to the presence of an append
event. -/
theorem mem_appendedUrls (evts : List JsEvent) (u : String) :
    u ∈ appendedUrls evts ↔ ∃ c, JsEvent.appendScript u c ∈ evts := by
  unfold appendedUrls
  rw [List.mem_filterMap]
  constructor
  · rintro ⟨e, he, hmatch⟩
    cases e with
    | appendScript u' c =>
      simp only [Option.some.injEq] at hmatch
      subst hmatch
      exact ⟨c, he⟩
    | dispatchDOMContentLoaded => cases hmatch
  · rintro ⟨c, hc⟩
    exact ⟨.appendScript u c, hc, rfl⟩

/-- An append event appears in one fetch continuation iff that index holds
the URL and its fetch resolved with the appended code. -/
theorem append_mem_fetchContinuation (files : List String) (fetch : FetchOracle)
    (ready : Bool) (i : Nat) (u c : String) :
    JsEvent.appendScript u c ∈ fetchContinuation files fetch ready i ↔
      files.get? i = some u ∧ fetch u = .ok c := by
  unfold fetchContinuation
  split
  next hg =>
    rw [hg]
    simp
  next src hg =>
    rw [hg]
    split
    next code hf =>
      constructor
      · intro hmem
        rcases List.mem_cons.mp hmem with heq | hmem'
        · injection heq with hu hc
          subst hu
          subst hc
          exact ⟨rfl, hf⟩
        · exfalso
          cases ready <;> simp at hmem'
      · rintro ⟨hu, hc⟩
        injection hu with hu'
        subst hu'
        rw [hf] at hc
        injection hc with hc'
        subst hc'
        exact List.mem_cons_self _ _
    next e hf =>
      simp only [List.not_mem_nil, false_iff, not_and, Option.some.injEq]
      intro hu
      subst hu
      rw [hf]
      intro hbad
      cases hbad

/-- An append event appears in the full trace iff some completed index
holds the URL and its fetch resolved with the appended code. -/
theorem append_mem_injectEvents (files : List String) (fetch : FetchOracle)
    (order : List Nat) (ready : Bool) (u c : String) :
    JsEvent.appendScript u c ∈ injectEvents files fetch order ready ↔
      ∃ i ∈ order, files.get? i = some u ∧ fetch u = .ok c := by
  unfold injectEvents
  rw [List.mem_flatten]
  constructor
  · rintro ⟨l, hl, hmem⟩
    obtain ⟨i, hi, rfl⟩ := List.mem_map.mp hl
    exact ⟨i, hi, (append_mem_fetchContinuation files fetch ready i u c).mp hmem⟩
  · rintro ⟨i, hi, h⟩
    exact ⟨fetchContinuation files fetch ready i, List.mem_map_of_mem _ hi,
      (append_mem_fetchContinuation files fetch ready i u c).mpr h⟩

/-- An error message appears in the log iff some completed index holds a
URL whose fetch rejected with it. -/
theorem mem_injectErrors (files : List String) (fetch : FetchOracle)
    (order : List Nat) (e : String) :
    e ∈ injectErrors files fetch order ↔
      ∃ i ∈ order, ∃ src, files.get? i = some src ∧ fetch src = .error e := by
  unfold injectErrors
  rw [List.mem_flatten]
  constructor
  · rintro ⟨l, hl, hmem⟩
    obtain ⟨i, hi, rfl⟩ := List.mem_map.mp hl
    refine ⟨i, hi, ?_⟩
    revert hmem
    split
    next hg => intro hmem; cases hmem
    next src hg =>
      split
      next code hf => intro hmem; cases hmem
      next e' hf =>
        intro hmem
        rcases List.mem_cons.mp hmem with heq | h0
        · subst heq
          exact ⟨src, hg, hf⟩
        · cases h0
  · rintro ⟨i, hi, src, hg, hf⟩
    refine ⟨_, List.mem_map_of_mem _ hi, ?_⟩
    show e ∈ (match files.get? i with
      | none => []
      | some src => match fetch src with
        | .ok _ => []
        | .error e => [e])
    rw [hg]
    show e ∈ (match fetch src with
      | .ok _ => []
      | .error e => [e])
    rw [hf]
    exact List.mem_cons_self _ _

/-- Each element of `loadPromises` resolves: its trailing `.catch`
converts any rejection into a resolution. -/
theorem loadPromise_ok (fetch : FetchOracle) (src : String) :
    loadPromise fetch src = .ok () := by
  unfold loadPromise
  cases fetch src <;> rfl

/-- `promiseAll` on a cons. -/
theorem promiseAll_cons (p : Except String Unit) (ps : List (Except String Unit)) :
    promiseAll (p :: ps) =
      match p, promiseAll ps with
      | .ok a, .ok l => .ok (a :: l)
      | .error e, _ => .error e
      | .ok _, .error e => .error e := rfl

/-- `Promise.all` over the fetch-inject-catch chains always resolves. -/
theorem injectJSResult_ok (jsFiles : List String) (fetch : FetchOracle) :
    injectJSResult jsFiles fetch = .ok ((uniqueFirst jsFiles).map fun _ => ()) := by
  unfold injectJSResult
  induction uniqueFirst jsFiles with
  | nil => rfl
  | cons x xs ih =>
    rw [List.map_cons, promiseAll_cons, ih, loadPromise_ok]
    rfl

/-- C1, evaluated at the failing input: with both fetches of
`[a.js, b.js]` succeeding under the completion interleaving in which
`b.js` settles first (a legal schedule: `[1, 0]` is a permutation of the
fetch indices), the scripts are appended in completion order
`[b.js, a.js]`, not in the declared list order `[a.js, b.js]`. -/
theorem C1_injection_completion_order :
    List.Perm [1, 0] (List.range (uniqueFirst ["a.js", "b.js"]).length) ∧
    appendedUrls (injectEvents (uniqueFirst ["a.js", "b.js"]) okFetch [1, 0] true)
      = ["b.js", "a.js"] ∧
    appendedUrls (injectEvents (uniqueFirst ["a.js", "b.js"]) okFetch [1, 0] true)
      ≠ uniqueFirst ["a.js", "b.js"] := by
  refine ⟨by decide, rfl, ?_⟩
  intro h
  rw [show appendedUrls (injectEvents (uniqueFirst ["a.js", "b.js"]) okFetch [1, 0] true)
      = ["b.js", "a.js"] from rfl,
    show uniqueFirst ["a.js", "b.js"] = ["a.js", "b.js"] from rfl] at h
  injection h with h1 _
  exact absurd h1 (by decide)

/-- C8: for every injection run (any de-duplicated file list, any fetch
outcomes, any completion interleaving of the issued fetches), exactly the
successfully fetched URLs get a script appended, every fetch failure is
caught and logged without suppressing the sibling appends, and the
overall injection promise resolves. -/
theorem C8_partial_failure (jsFiles : List String) (fetch : FetchOracle)
    (order : List Nat) (ready : Bool)
    (hperm : List.Perm order (List.range (uniqueFirst jsFiles).length)) :
    (∀ u, u ∈ appendedUrls (injectEvents (uniqueFirst jsFiles) fetch order ready) ↔
        (u ∈ uniqueFirst jsFiles ∧ ∃ c, fetch u = .ok c)) ∧
    (∀ e, e ∈ injectErrors (uniqueFirst jsFiles) fetch order ↔
        ∃ u ∈ uniqueFirst jsFiles, fetch u = .error e) ∧
    injectJSResult jsFiles fetch = .ok ((uniqueFirst jsFiles).map fun _ => ()) := by
  have hidx : ∀ i, i ∈ order ↔ i < (uniqueFirst jsFiles).length := by
    intro i
    rw [hperm.mem_iff, List.mem_range]
  refine ⟨?_, ?_, injectJSResult_ok jsFiles fetch⟩
  · intro u
    rw [mem_appendedUrls]
    constructor
    · rintro ⟨c, hc⟩
      obtain ⟨i, _, hg, hf⟩ := (append_mem_injectEvents _ fetch order ready u c).mp hc
      exact ⟨List.get?_mem hg, c, hf⟩
    · rintro ⟨hu, c, hf⟩
      obtain ⟨n, rfl⟩ := List.mem_iff_get.mp hu
      exact ⟨c, (append_mem_injectEvents _ fetch order ready _ c).mpr
        ⟨n.1, (hidx n.1).mpr n.isLt, List.get?_eq_get n.isLt, hf⟩⟩
  · intro e
    rw [mem_injectErrors]
    constructor
    · rintro ⟨i, _, src, hg, hf⟩
      exact ⟨src, List.get?_mem hg, hf⟩
    · rintro ⟨u, hu, hf⟩
      obtain ⟨n, rfl⟩ := List.mem_iff_get.mp hu
      exact ⟨n.1, (hidx n.1).mpr n.isLt, _, List.get?_eq_get n.isLt, hf⟩

theorem C8_partial_failure_witness :
    "b.js" ∈ appendedUrls (injectEvents (uniqueFirst ["a.js", "b.js"]) mixedFetch [1, 0] true) ∧
    "a.js" ∉ appendedUrls (injectEvents (uniqueFirst ["a.js", "b.js"]) mixedFetch [1, 0] true) ∧
    "neterr" ∈ injectErrors (uniqueFirst ["a.js", "b.js"]) mixedFetch [1, 0] ∧
    injectJSResult ["a.js", "b.js"] mixedFetch = .ok [(), ()] := by
  have h := C8_partial_failure ["a.js", "b.js"] mixedFetch [1, 0] true (by decide)
  refine ⟨(h.1 "b.js").mpr ⟨by decide, "// code of " ++ "b.js", rfl⟩, ?_, ?_, h.2.2⟩
  · intro hbad
    obtain ⟨-, c, hc⟩ := (h.1 "a.js").mp hbad
    rw [show mixedFetch "a.js" = .error "neterr" from rfl] at hc
    cases hc
  · exact (h.2.1 "neterr").mpr ⟨"a.js", by decide, rfl⟩

/-- C9 counterexample: with two JS assets both fetching successfully and
completing in declared order while the document is in a ready state, the
trace dispatches a DOMContentLoaded between the two appends — a script is
appended after a signal has been dispatched, contradicting the claim
that the signal only fires after all scripts are appended. -/
theorem C9_dispatch_counterexample :
    injectEvents (uniqueFirst ["a.js", "b.js"]) okFetch [0, 1] true =
      [.appendScript "a.js" ("// code of " ++ "a.js"), .dispatchDOMContentLoaded,
        .appendScript "b.js" ("// code of " ++ "b.js"), .dispatchDOMContentLoaded] ∧
    appendAfterDispatch (injectEvents (uniqueFirst ["a.js", "b.js"]) okFetch [0, 1] true)
      = true := ⟨rfl, rfl⟩

/-- A fetch continuation's events leave `appendsFollowed` invariant: the
chunk is empty or an append immediately followed by its dispatch. -/
theorem appendsFollowed_chunk (files : List String) (fetch : FetchOracle)
    (i : Nat) (l : List JsEvent) :
    appendsFollowed (fetchContinuation files fetch true i ++ l) = appendsFollowed l := by
  unfold fetchContinuation
  split
  next hg => rfl
  next src hg =>
    split
    next code hf => rfl
    next e hf => rfl

/-- C9 amended: in every injection run with the document in a ready state,
the synthetic DOMContentLoaded is dispatched immediately after EACH
successful script append (so a dispatch does follow the final append),
rather than once after all appends. -/
theorem C9_dispatch_amended (files : List String) (fetch : FetchOracle)
    (order : List Nat) :
    appendsFollowed (injectEvents files fetch order true) = true := by
  induction order with
  | nil => rfl
  | cons i rest ih =>
    rw [show injectEvents files fetch (i :: rest) true
        = fetchContinuation files fetch true i ++ injectEvents files fetch rest true from by
      simp [injectEvents]]
    rw [appendsFollowed_chunk]
    exact ih

theorem C10_missing_input_witness :
    isActiveInput ((fun _ => none : Reader) "s1") = true ∧
    collectElement (fun _ => none) (fun _ => none) "winter" ⟨[], [], []⟩
        ⟨"s1", some "snow.js", some "js", []⟩ =
      collectElement (fun x => if x = "s1" then some ⟨"checkbox", true, ""⟩ else none)
        (fun _ => none) "winter" ⟨[], [], []⟩ ⟨"s1", some "snow.js", some "js", []⟩ :=
  C10_missing_input (fun _ => none) (fun _ => none) "winter" ⟨[], [], []⟩
    ⟨"s1", some "snow.js", some "js", []⟩ rfl (by simp)

end Celebrations
